import Mathlib

/-!
Verification of the `canvas-cli` assignment aggregator.

This file is a shallow embedding of the parts of the program that the
verified properties talk about:

* the data model (`CanvasAssignment`, `GradescopeAssignment`, `Config`, …)
  from `src/api.rs`, `src/gradescope.rs` and `src/config.rs`;
* the filter predicate `should_show` and the helper `process_submission`
  from `src/main.rs`;
* the `todo` pipeline of `run_todo` / `load_canvas` (exclusion filters,
  merge, sort, print loop, next-due markers, locked counter) from
  `src/main.rs`;
* the single-attempt HTTP `fetch` wrapper from `src/main.rs`;
* the in-flight progress registry from `src/progress.rs`.

Conventions of the embedding:

* `chrono::DateTime<Local>` values are modelled as `Int` numbers of seconds
  (only differences, comparisons and whole-day truncation are used by the
  program); `Local::now()` is an explicit `now : Int` parameter.
* `chrono::Duration::num_days` truncates toward zero, hence `Int.tdiv`.
* `f64` fields (`points_possible`, scores) are carried as exact rationals:
  the program never computes with them, it only tests their presence and
  displays them.
* Terminal colouring (`.purple()`, `.bold()`, …) only decorates strings
  with escape codes; the embedding keeps the undecorated text.
* Network effects are replaced by explicit oracles (`fetch` takes the
  transport outcome of each attempt as an argument), and the async
  progress registry is modelled by an explicit event trace.
-/

/-! ## Data model (src/api.rs, src/gradescope.rs, src/config.rs) -/

/-- One discussion entry of a Canvas submission (`api.rs`, `DiscussionEntry`).
Only the number of entries is ever inspected, so a single representative
field is kept. -/
structure DiscussionEntry where
  id : Int
  deriving DecidableEq, Repr

/-- The fields of `api.rs`'s `Submission` record that the program reads. -/
structure Submission where
  submitted_at : Option String
  discussion_entries : List DiscussionEntry
  deriving DecidableEq, Repr

/-- The fields of `api.rs`'s `CanvasAssignment` record that the program
reads. `points_possible : Option f64` is carried as `Option Rat`. -/
structure CanvasAssignment where
  id : Int
  due_at : Option Int
  points_possible : Option Rat
  peer_reviews : Bool
  name : String
  submission_types : List String
  submission : Option Submission
  locked_for_user : Bool
  html_url : String
  deriving DecidableEq, Repr

/-- The fields of `api.rs`'s `CanvasCourse` record that the program reads. -/
structure CanvasCourse where
  id : Int
  name : String
  deriving DecidableEq, Repr

/-- `gradescope.rs`'s `GradescopeCourse`. -/
structure GradescopeCourse where
  shortname : String
  name : String
  assignment_count : Nat
  id : Int
  deriving DecidableEq, Repr

/-- `gradescope.rs`'s `GradescopeAssignment`. -/
structure GradescopeAssignment where
  name : String
  submitted : Bool
  due_at : Option Int
  link : Option String
  deriving DecidableEq, Repr

/-- `config.rs`'s `Exclusion` variant. -/
inductive Exclusion where
  | ByClassId (class_id : Int)
  | ByAssignmentId (assignment_id : Int)
  deriving DecidableEq, Repr

/-- `config.rs`'s `Inclusion` variant. -/
inductive Inclusion where
  | ByAssignmentId (assignment_id : Int)
  deriving DecidableEq, Repr

/-- The fields of `config.rs`'s `Config` that the `todo` pipeline reads
(`canvas_url` and `token` only feed the network layer). -/
structure Config where
  gradescope_cookie : Option String
  hide_overdue_after_days : Option Int
  hide_overdue_without_submission : Bool
  exclude : List Exclusion
  «include» : List Inclusion
  hide_locked : Bool
  deriving DecidableEq, Repr

/-- `main.rs`'s unified `Assignment` sum type. -/
inductive Assignment where
  | Canvas (course : CanvasCourse) (a : CanvasAssignment)
  | Gradescope (course : GradescopeCourse) (a : GradescopeAssignment)
  deriving DecidableEq, Repr

/-- `Assignment::assignment_id` from `main.rs`: only Canvas assignments
carry an id. -/
def Assignment.assignment_id : Assignment → Option Int
  | .Canvas _ a => some a.id
  | .Gradescope _ _ => none

/-- `Assignment::due_at` from `main.rs`. -/
def Assignment.due_at : Assignment → Option Int
  | .Canvas _ a => a.due_at
  | .Gradescope _ a => a.due_at

/-! ## process_submission and should_show (src/main.rs) -/

/-- The display name of a non-`none`, non-`on_paper` submission type
(the inner `match` of `process_submission`). -/
def submission_type_text (x : String) : String :=
  match x with
  | "online_text_entry" => "Text entry"
  | "online_upload" => "File upload"
  | "online_quiz" => "Quiz"
  | "discussion_topic" => "Discussion"
  | "media_recording" => "Media recording"
  | "external_tool" => "External tool"
  | _ => "Unknown"

/-- `process_submission` from `main.rs`: folds over `submission_types`,
collecting display names and setting the `online_submission` flag as soon
as a type other than `none` / `on_paper` is seen.  Returns the formatted
type/points line and the flag. -/
def process_submission (assignment : CanvasAssignment) (points : Rat) :
    String × Bool :=
  let step := fun (acc : List String × Bool) (x : String) =>
    match x with
    | "none" => (acc.1 ++ ["No submission"], acc.2)
    | "on_paper" => (acc.1 ++ ["On paper"], acc.2)
    | x => (acc.1 ++ [submission_type_text x], true)
  let folded := assignment.submission_types.foldl step ([], false)
  (String.intercalate ", " folded.1 ++ " - " ++ toString points ++ " points",
    folded.2)

/-- The inclusion test that opens `should_show`: an assignment with an id
in the configured inclusion list is always shown. -/
def inclusion_hit (config : Config) (assignment : Assignment) : Bool :=
  match assignment.assignment_id with
  | some id => decide (Inclusion.ByAssignmentId id ∈ config.«include»)
  | none => false

/-- `chrono::Duration::num_days` on a difference of timestamps in seconds:
truncating division by 86400. -/
def num_days (d : Int) : Int := Int.tdiv d 86400

/-- The `if let Some(due) = assignment.due_at()` block of `should_show`:
`true` means fall through, `false` means the early `return false` fired. -/
def should_show_due_block (config : Config) (now : Int)
    (assignment : Assignment) : Bool :=
  match assignment.due_at with
  | some due =>
    if (match config.hide_overdue_after_days with
        | some overdue_offset => decide (num_days (now - due) > overdue_offset)
        | none => false) then
      false
    else
      match assignment with
      | .Canvas _ a =>
        if config.hide_overdue_without_submission then
          let submission := (process_submission a 0).2
          if !submission && decide (now > due) then false else true
        else true
      | .Gradescope _ a => if a.submitted then false else true
  | none => true

/-- The trailing Canvas-only block of `should_show`: a finalized submission
(`submitted_at` present) suppresses the assignment unless it is a
peer-review assignment with fewer than two discussion entries. -/
def should_show_submission_block (assignment : Assignment) : Bool :=
  match assignment with
  | .Canvas _ a =>
    match a.submission with
    | some submission =>
      if !(submission.submitted_at.isNone ||
           (a.peer_reviews && decide (submission.discussion_entries.length < 2)))
      then false else true
    | none => true
  | .Gradescope _ _ => true

/-- `should_show` from `main.rs`, with `Local::now()` passed explicitly. -/
def should_show (config : Config) (now : Int) (assignment : Assignment) :
    Bool :=
  if inclusion_hit config assignment then true
  else if !should_show_due_block config now assignment then false
  else if !should_show_submission_block assignment then false
  else true

/-! ## The HTTP fetch wrapper (src/main.rs, `fetch`) -/

/-- The outcome of one HTTP send: a transport-level failure, or a response
with a status code and a body read that may itself fail
(`bytes().await`). -/
inductive TransportResult where
  | transportError (cause : String)
  | response (status : Nat) (body : Except String (List Nat))
  deriving Repr

/-- The error chain of `fetch` in `main.rs`:
`Unable to fetch {url}` wrapping a transport cause, `Server returned error`
from `error_for_status`, `Failed to read data from server` from the body
read, or `Unable to parse {url}` wrapping a decode cause. -/
inductive FetchError where
  | unableToFetch (url : String) (cause : String)
  | serverReturnedError (status : Nat)
  | failedToReadData (cause : String)
  | unableToParse (url : String) (cause : String)
  deriving DecidableEq, Repr

/-- reqwest's `error_for_status` fails exactly on client/server error
statuses (4xx and 5xx). -/
def status_is_error (status : Nat) : Bool :=
  decide (400 ≤ status) && decide (status ≤ 599)

/-- `fetch` from `main.rs`, with the network replaced by an oracle
`transport : Nat → TransportResult` giving the outcome of the n-th send.
Returns the number of sends issued together with the result.  The body of
the source performs a single `send()` (consulting only `transport 0`),
then `error_for_status`, then the body read, then one decode attempt. -/
def fetch {T : Type} (decode : List Nat → Except String T) (url : String)
    (transport : Nat → TransportResult) : Nat × Except FetchError T :=
  match transport 0 with
  | .transportError cause => (1, .error (.unableToFetch url cause))
  | .response status body =>
    if status_is_error status then
      (1, .error (.serverReturnedError status))
    else
      match body with
      | .error cause => (1, .error (.failedToReadData cause))
      | .ok bytes =>
        match decode bytes with
        | .ok v => (1, .ok v)
        | .error cause => (1, .error (.unableToParse url cause))

/-! ## The todo pipeline (src/main.rs, `run_todo` / `load_canvas` /
`load_gradescope`) -/

/-- The course-level exclusion test of `load_canvas`: a course is dropped
when some configured exclusion is `ByClassId` with its id. -/
def canvas_course_excluded (config : Config) (c : CanvasCourse) : Bool :=
  config.exclude.any fun y =>
    match y with
    | .ByClassId class_id => class_id == c.id
    | _ => false

/-- `load_canvas` after the network phase: retain non-excluded courses and
sort them by name.  The per-course assignment lists are supplied as data
since each is a function of the course fetched over the network. -/
def load_canvas_model (config : Config)
    (courses : List (CanvasCourse × List CanvasAssignment)) :
    List (CanvasCourse × List CanvasAssignment) :=
  (courses.filter fun x => !canvas_course_excluded config x.1).insertionSort
    fun a b => a.1.name ≤ b.1.name

/-- `load_gradescope`: returns no courses at all when no Gradescope cookie
is configured; otherwise every scraped course with its assignments. -/
def load_gradescope_model (config : Config)
    (courses : List (GradescopeCourse × List GradescopeAssignment)) :
    List (GradescopeCourse × List GradescopeAssignment) :=
  match config.gradescope_cookie with
  | none => []
  | some _ => courses

/-- The merge in `run_todo`: Gradescope pairs flattened first, then Canvas
pairs, each tagged with its source variant. -/
def merge_assignments
    (gradescope : List (GradescopeCourse × List GradescopeAssignment))
    (canvas : List (CanvasCourse × List CanvasAssignment)) :
    List Assignment :=
  (gradescope.flatMap fun p => p.2.map fun a => Assignment.Gradescope p.1 a) ++
    (canvas.flatMap fun p => p.2.map fun a => Assignment.Canvas p.1 a)

/-- The assignment-level exclusion test in `run_todo`'s `retain`: an
assignment is dropped when some configured exclusion equals
`ByAssignmentId` of its id; assignments without an id never match. -/
def assignment_excluded (config : Config) (a : Assignment) : Bool :=
  config.exclude.any fun x =>
    match a.assignment_id with
    | some id => x == Exclusion.ByAssignmentId id
    | none => false

/-- The candidate set of `run_todo`: courses filtered by `ByClassId`
exclusions inside `load_canvas`, sources merged, then the
`ByAssignmentId` retain — everything that happens before the sort. -/
def candidate_assignments (config : Config)
    (canvasData : List (CanvasCourse × List CanvasAssignment))
    (gradescopeData : List (GradescopeCourse × List GradescopeAssignment)) :
    List Assignment :=
  (merge_assignments (load_gradescope_model config gradescopeData)
      (load_canvas_model config canvasData)).filter
    fun a => !assignment_excluded config a

/-- Rust's derived `Ord` on `Option<DateTime>`: `None` is least. -/
def option_due_le : Option Int → Option Int → Bool
  | none, _ => true
  | some _, none => false
  | some x, some y => decide (x ≤ y)

/-- The sort key order of `sort_by_key(|x| Reverse(x.due_at()))`:
`a` precedes `b` when `b`'s due date is at most `a`'s in the derived
`Option` order, i.e. descending by due date with date-less assignments
last. -/
def due_desc (a b : Assignment) : Prop := option_due_le b.due_at a.due_at = true

instance : DecidableRel due_desc := fun a b =>
  decEq (option_due_le b.due_at a.due_at) true

/-- `sort_by_key(|x| Reverse(x.due_at()))`: a stable sort ascending in the
reversed ordering (insertion sort is stable for a total preorder, like
Rust's `sort_by_key`). -/
def sort_by_due_desc (l : List Assignment) : List Assignment :=
  l.insertionSort due_desc

/-- The mutable state of `run_todo`'s print loop. `printed` records the
assignments whose blocks were printed, in print order. -/
structure TodoState where
  next_assignment_due_at : Option Int
  next_submission_due_at : Option Int
  locked_count : Nat
  printed : List Assignment
  deriving DecidableEq, Repr

/-- One iteration of `run_todo`'s `for assignment in all_assignments`
loop.  Mirrors the source: assignments without a due date are skipped; the
`show_all || should_show` gate; Canvas assignments additionally need
`points_possible` and `submission` present; `hide_locked` diverts locked
assignments to the counter; the next-due markers are overwritten as
described at the corresponding branches of the source. -/
def run_todo_step (config : Config) (show_all : Bool) (now : Int)
    (st : TodoState) (assignment : Assignment) : TodoState :=
  match assignment.due_at with
  | none => st
  | some due =>
    if show_all || should_show config now assignment then
      match assignment with
      | .Canvas course a =>
        match a.points_possible with
        | none => st
        | some points =>
          match a.submission with
          | none => st
          | some submission =>
            if config.hide_locked && a.locked_for_user then
              { st with locked_count := st.locked_count + 1 }
            else
              let printed := st.printed ++ [Assignment.Canvas course a]
              let online_submission := (process_submission a points).2
              if decide (due > now) && submission.submitted_at.isNone then
                match a.due_at with
                | some due_at =>
                  { st with
                    printed := printed,
                    next_assignment_due_at := some due_at,
                    next_submission_due_at :=
                      if online_submission then some due_at
                      else st.next_submission_due_at }
                | none => { st with printed := printed }
              else { st with printed := printed }
      | .Gradescope course a =>
        let printed := st.printed ++ [Assignment.Gradescope course a]
        match a.due_at with
        | some due_at =>
          { st with
            printed := printed,
            next_assignment_due_at := some due_at,
            next_submission_due_at := some due_at }
        | none => { st with printed := printed }
    else st

/-- The whole `todo` pipeline: candidate set, sort, print loop. -/
def run_todo_model (config : Config) (show_all : Bool) (now : Int)
    (canvasData : List (CanvasCourse × List CanvasAssignment))
    (gradescopeData : List (GradescopeCourse × List GradescopeAssignment)) :
    TodoState :=
  (sort_by_due_desc
      (candidate_assignments config canvasData gradescopeData)).foldl
    (run_todo_step config show_all now) ⟨none, none, 0, []⟩

/-- The trailing locked-count summary of `run_todo`: printed only when the
counter is nonzero, singular for exactly one. -/
def locked_summary (locked_count : Nat) : Option String :=
  if locked_count != 0 then
    some ("(+" ++ toString locked_count ++ " locked assignment" ++
      (if locked_count == 1 then "" else "s") ++ ")")
  else none

/-- `format_duration` in `main.rs` begins with `assert!(b > a)`; this is
that assertion's condition.  `run_todo` calls `format_duration now t` for
each next-due marker `t` it reports, so a marker with `t ≤ now` makes the
program panic.  The formatted text itself is display-only and not needed
by any verified property. -/
def format_duration_assert_holds (a b : Int) : Bool := decide (b > a)

/-! ## The progress registry (src/progress.rs) -/

/-- The `Arena<String>` of `Progress.messages`, modelled as the spec's
"free-list-backed array of slots": a list of slots each holding an
in-flight label or nothing.  Slot handles are indices; removal never moves
other entries. -/
abbrev Arena := List (Option String)

/-- `Arena::insert`: place the label in the first free slot, or append a
new slot; returns the slot handle and the new arena. -/
def arena_insert (a : Arena) (msg : String) : Nat × Arena :=
  let i := a.findIdx Option.isNone
  if i < a.length then (i, a.set i (some msg)) else (a.length, a ++ [some msg])

/-- `Arena::remove` of a held handle: clear that slot. -/
def arena_remove (a : Arena) (i : Nat) : Arena := a.set i none

/-- The label list the arena's iterator yields, in slot order. -/
def arena_messages (a : Arena) : List String := a.filterMap id

/-- The occupied (slot, label) pairs of the arena — the registry's
entries. -/
def arena_entries (a : Arena) : List (Nat × String) :=
  a.enum.filterMap fun p => p.2.map fun l => (p.1, l)

/-- `Progress::update`: collect all messages, join them with ", " into the
bar's message and set the bar's length to their number.  Returns the
rendered (message, length) pair. -/
def progress_update (a : Arena) : String × Nat :=
  let messages := arena_messages a
  (String.intercalate ", " messages, messages.length)

/-- `Progress::wrap` on the registry, sequentially: insert the label
(then redraw), evaluate the wrapped future to its output `out` — any
value, in particular an `Err` one — remove the inserted slot (then
redraw), and return the output. -/
def progress_wrap {α : Type} (a : Arena) (msg : String) (out : α) :
    α × Arena :=
  let ia := arena_insert a msg
  let o := out
  (o, arena_remove ia.2 ia.1)

/-- The visible events of a history of interleaved `wrap` calls: the k-th
`beginOp` is the insert of the k-th `wrap` call to start, and `endOp k`
is that call's removal after its future completed. -/
inductive WrapEvent where
  | beginOp (label : String)
  | endOp (call : Nat)
  deriving DecidableEq, Repr

/-- Registry execution state over a trace: the arena together with, for
every `wrap` call started so far, the slot it holds (`none` once it has
removed it). -/
structure ProgressState where
  arena : Arena
  slots : List (Option Nat)
  deriving DecidableEq, Repr

/-- One trace event against the registry.  `endOp k` is only valid while
call `k` holds a slot — `wrap` removes the handle it inserted, exactly
once. -/
def progress_step (st : ProgressState) : WrapEvent → Option ProgressState
  | .beginOp label =>
    let ia := arena_insert st.arena label
    some ⟨ia.2, st.slots ++ [some ia.1]⟩
  | .endOp k =>
    match st.slots[k]? with
    | some (some s) => some ⟨arena_remove st.arena s, st.slots.set k none⟩
    | _ => none

/-- Run a trace of wrap events from the empty registry. -/
def progress_run (events : List WrapEvent) : Option ProgressState :=
  events.foldlM progress_step ⟨[], []⟩

/-- The label of every call begun in the trace, `none` once the call has
completed, extending a given earlier history. -/
def call_states (init : List (Option String)) (events : List WrapEvent) :
    List (Option String) :=
  events.foldl
    (fun cs e =>
      match e with
      | .beginOp l => cs ++ [some l]
      | .endOp k => cs.set k none)
    init

/-- The labels of the wrap calls begun and not yet completed by a trace. -/
def in_flight_labels (events : List WrapEvent) : List String :=
  (call_states [] events).filterMap id

/-! ## Derived characterizations and sample inputs used by the theorems -/

/-- Exactly when `run_todo`'s loop prints a block for an assignment: a due
date exists, the `show_all || should_show` gate passes, and — for Canvas
assignments — `points_possible` and `submission` are present and the
assignment is not diverted to the locked counter. -/
def print_condition (config : Config) (show_all : Bool) (now : Int)
    (a : Assignment) : Bool :=
  a.due_at.isSome && (show_all || should_show config now a) &&
    (match a with
     | .Canvas _ ca =>
       ca.points_possible.isSome && ca.submission.isSome &&
         !(config.hide_locked && ca.locked_for_user)
     | .Gradescope _ _ => true)

/-- Exactly when `run_todo`'s loop increments the locked counter instead
of printing: the same conditions, but the assignment is Canvas, locked,
and `hide_locked` is configured. -/
def locked_condition (config : Config) (show_all : Bool) (now : Int)
    (a : Assignment) : Bool :=
  a.due_at.isSome && (show_all || should_show config now a) &&
    (match a with
     | .Canvas _ ca =>
       ca.points_possible.isSome && ca.submission.isSome &&
         (config.hide_locked && ca.locked_for_user)
     | .Gradescope _ _ => false)

/-- The correspondence between the registry state and the per-call ledger
`cs` (label of each begun call, `none` once completed): lengths agree, a
call holding slot `s` has its label stored at `s`, completed calls are
completed in the ledger, and no two calls hold the same slot. -/
def SlotsInv (a : Arena) (slots : List (Option Nat))
    (cs : List (Option String)) : Prop :=
  slots.length = cs.length ∧
    (∀ k s : Nat, slots[k]? = some (some s) →
      ∃ l, cs[k]? = some (some l) ∧ a[s]? = some (some l)) ∧
    (∀ k : Nat, slots[k]? = some none → cs[k]? = some none) ∧
    (∀ k1 k2 : Nat, ∀ s : Nat, slots[k1]? = some (some s) →
      slots[k2]? = some (some s) → k1 = k2)

/-- An unsubmitted Canvas submission record. -/
def sub0 : Submission := ⟨none, []⟩

/-- A sample Canvas course. -/
def course0 : CanvasCourse := ⟨1, "Algorithms"⟩

/-- A sample upcoming Canvas assignment with an online submission type. -/
def ca0 : CanvasAssignment :=
  ⟨7, some 2000, some 10, false, "HW 1", ["online_upload"], some sub0,
    false, "https://canvas.test/1"⟩

/-- A locked variant of the sample Canvas assignment. -/
def caLocked : CanvasAssignment :=
  ⟨8, some 2000, some 10, false, "HW 2", ["online_upload"], some sub0,
    true, "https://canvas.test/2"⟩

/-- A Canvas assignment whose `points_possible` is absent. -/
def caNoPts : CanvasAssignment :=
  ⟨9, some 2000, none, false, "HW 3", ["online_upload"], some sub0,
    false, "https://canvas.test/3"⟩

/-- A config whose inclusion list contains assignment id 7. -/
def cfgInc : Config := ⟨none, none, false, [], [.ByAssignmentId 7], false⟩

/-- A config with every optional rule off. -/
def cfgPlain : Config := ⟨none, none, false, [], [], false⟩

/-- A config with `hide_locked` on and everything else off. -/
def cfgLock : Config := ⟨none, none, false, [], [], true⟩

/-- A config with a Gradescope cookie and a `ByClassId 100` exclusion. -/
def cfgExc : Config := ⟨some "cookie", none, false, [.ByClassId 100], [], false⟩

/-- A config with a Gradescope cookie and every rule off. -/
def cfgGS : Config := ⟨some "cookie", none, false, [], [], false⟩

/-- A sample Gradescope course. -/
def gcourse0 : GradescopeCourse := ⟨"CS1", "Intro", 3, 55⟩

/-- A Gradescope course whose id matches `cfgExc`'s class exclusion. -/
def gcourse100 : GradescopeCourse := ⟨"CS2", "Systems", 1, 100⟩

/-- A submitted Gradescope assignment with a due date. -/
def gaSub : GradescopeAssignment := ⟨"PS 1", true, some 500, none⟩

/-- An unsubmitted Gradescope assignment with a due date. -/
def ga1 : GradescopeAssignment :=
  ⟨"Lab 1", false, some 300, some "/courses/100/assignments/9"⟩

/-- An unsubmitted Gradescope assignment one day overdue at
`now = 1000000`. -/
def gaOverdue : GradescopeAssignment := ⟨"Lab 2", false, some 913600, none⟩

/-- A decoder accepting any body (stands for a successful JSON decode). -/
def decode0 : List Nat → Except String Nat := fun _ => .ok 1

/-- The course-list path fetched by `load_canvas`. -/
def urlC : String := "/api/v1/courses?enrollment_state=active&per_page=10000"

/-- A transport oracle that fails the first two sends and succeeds from
the third on. -/
def transportFails2 : Nat → TransportResult := fun n =>
  if n < 2 then .transportError "connection refused"
  else .response 200 (.ok [49])

instance : IsTotal Assignment due_desc := by
  constructor
  intro a b
  unfold due_desc
  cases b.due_at <;> cases a.due_at <;> simp [option_due_le] <;> omega

instance : IsTrans Assignment due_desc := by
  constructor
  intro a b c hab hbc
  unfold due_desc at *
  generalize a.due_at = x at *
  generalize b.due_at = y at *
  generalize c.due_at = z at *
  cases x <;> cases y <;> cases z <;> simp [option_due_le] at * <;> omega

/-! ## Theorems -/

/-- Claim C6: for every configuration and every assignment that has an
assignment id, if that id is in the configured inclusion set then
`should_show` returns `true`, regardless of any other rule. -/
theorem inclusion_always_shown (config : Config) (now : Int)
    (assignment : Assignment) (id : Int)
    (hid : assignment.assignment_id = some id)
    (hmem : Inclusion.ByAssignmentId id ∈ config.«include») :
    should_show config now assignment = true := by
  unfold should_show inclusion_hit
  rw [hid]
  simp [hmem]

/-- Witness for C6: assignment id 7 is in `cfgInc`'s inclusion list, and
the sample assignment is shown. -/
theorem inclusion_always_shown_witness :
    should_show cfgInc 0 (Assignment.Canvas course0 ca0) = true :=
  inclusion_always_shown cfgInc 0 (Assignment.Canvas course0 ca0) 7 rfl
    (by decide)

/-- Counterexample to claim C3: with `hide_overdue_without_submission`
off, a submitted scraped-source assignment with a due date is still
suppressed by `should_show` — the submitted-scraped suppression is not
conditioned on that option. -/
theorem submitted_gradescope_suppressed_without_option :
    cfgPlain.hide_overdue_without_submission = false ∧
    gaSub.submitted = true ∧
    should_show cfgPlain 0 (Assignment.Gradescope gcourse0 gaSub) = false := by
  decide

/-- Claim C3 as amended: a submitted scraped-source (Gradescope)
assignment is suppressed by `should_show` exactly when it has a due
timestamp, for every configuration — independent of the
`hide_overdue_without_submission` option. -/
theorem submitted_gradescope_show_iff (config : Config) (now : Int)
    (c : GradescopeCourse) (a : GradescopeAssignment)
    (h : a.submitted = true) :
    should_show config now (.Gradescope c a) = a.due_at.isNone := by
  unfold should_show inclusion_hit should_show_due_block
    should_show_submission_block Assignment.assignment_id Assignment.due_at
  cases hd : a.due_at with
  | none => simp [hd]
  | some due =>
    cases config.hide_overdue_after_days <;> simp [h, hd]

/-- Witness for the amended C3 at a concrete submitted assignment with a
due date. -/
theorem submitted_gradescope_show_iff_witness :
    should_show cfgPlain 0 (Assignment.Gradescope gcourse0 gaSub) =
      gaSub.due_at.isNone :=
  submitted_gradescope_show_iff cfgPlain 0 gcourse0 gaSub rfl

/-- Counterexample to claim C1: a fetch whose transport fails twice and
would succeed on the third send makes exactly 1 attempt — not the claimed
3 — and surfaces the first transport error immediately. -/
theorem fetch_no_retry_counterexample :
    (fetch decode0 urlC transportFails2).1 = 1 ∧
    ¬ (fetch decode0 urlC transportFails2).1 = 3 ∧
    (fetch decode0 urlC transportFails2).2 =
      Except.error (.unableToFetch urlC "connection refused") :=
  ⟨rfl, by decide, rfl⟩

/-- Claim C1 as amended: `fetch` issues exactly one send with no retry or
backoff; a transport-level failure is returned at once as an error tagged
with the path and the transport cause, and an HTTP error status (4xx/5xx)
is returned at once as a server-status error. -/
theorem fetch_single_attempt {T : Type} (decode : List Nat → Except String T)
    (url : String) (transport : Nat → TransportResult) :
    (fetch decode url transport).1 = 1 ∧
    (∀ cause, transport 0 = .transportError cause →
      (fetch decode url transport).2 =
        Except.error (.unableToFetch url cause)) ∧
    (∀ status body, transport 0 = .response status body →
      status_is_error status = true →
      (fetch decode url transport).2 =
        Except.error (.serverReturnedError status)) := by
  refine ⟨?_, ?_, ?_⟩
  · unfold fetch
    cases transport 0 with
    | transportError c => rfl
    | response status body =>
      dsimp only
      split
      · rfl
      · cases body with
        | error c => rfl
        | ok bytes =>
          dsimp only
          cases hd2 : decode bytes <;> simp [hd2]
  · intro cause hc
    unfold fetch
    rw [hc]
  · intro status body hs hse
    unfold fetch
    rw [hs]
    simp [hse]

/-- Witness for the amended C1 at the concrete twice-failing transport. -/
theorem fetch_single_attempt_witness :
    (fetch decode0 urlC transportFails2).1 = 1 ∧
    (fetch decode0 urlC transportFails2).2 =
      Except.error (.unableToFetch urlC "connection refused") :=
  ⟨(fetch_single_attempt decode0 urlC transportFails2).1,
    (fetch_single_attempt decode0 urlC transportFails2).2.1
      "connection refused" rfl⟩

/-- Claim C2, evaluated at the input on which the code contradicts its own
assertion: a single displayed Gradescope assignment one day overdue and
not submitted.  The Gradescope branch of `run_todo` sets both next-due
markers unconditionally, so they end up holding a past timestamp; the
summary then calls `format_duration(now, t)` whose `assert!(b > a)` fails
(the program panics), whereas the claim says only future, still-actionable
due dates are reported. -/
theorem gradescope_overdue_marker_panics :
    (run_todo_model cfgGS false 1000000 [] [(gcourse0, [gaOverdue])]).printed =
      [Assignment.Gradescope gcourse0 gaOverdue] ∧
    (run_todo_model cfgGS false 1000000 []
        [(gcourse0, [gaOverdue])]).next_assignment_due_at = some 913600 ∧
    (run_todo_model cfgGS false 1000000 []
        [(gcourse0, [gaOverdue])]).next_submission_due_at = some 913600 ∧
    format_duration_assert_holds 1000000 913600 = false := by
  decide

/-- Counterexample to claim C4: a configured `ByClassId` exclusion does
not remove scraped-source assignments — a Gradescope course with the
excluded id still contributes its assignment to the candidate set. -/
theorem class_exclusion_misses_gradescope :
    Exclusion.ByClassId 100 ∈ cfgExc.exclude ∧
    gcourse100.id = 100 ∧
    candidate_assignments cfgExc [] [(gcourse100, [ga1])] =
      [Assignment.Gradescope gcourse100 ga1] := by
  decide

/-- Helper: one loop iteration appends the assignment to the printed list
exactly when `print_condition` holds, and never touches earlier output. -/
theorem run_todo_step_printed (config : Config) (show_all : Bool) (now : Int)
    (st : TodoState) (a : Assignment) :
    (run_todo_step config show_all now st a).printed =
      st.printed ++
        (if print_condition config show_all now a then [a] else []) := by
  cases a with
  | Canvas c ca =>
    obtain ⟨cid, cdue, cpts, cpr, cname, ctypes, csub, clock, curl⟩ := ca
    unfold run_todo_step print_condition
    simp only [Assignment.due_at]
    cases cdue with
    | none => simp
    | some due =>
      dsimp only
      split
      next hg =>
        cases cpts with
        | none => simp [hg]
        | some pts =>
          cases csub with
          | none => simp [hg]
          | some sub =>
            by_cases hl : (config.hide_locked && clock) = true
            · simp [hg, hl]
            · rw [Bool.not_eq_true] at hl
              simp only [hg, hl, Option.isSome_some, Bool.and_true,
                Bool.true_and, Bool.not_false, if_true, Bool.false_eq_true,
                if_false]
              split <;> rfl
      next hg =>
        rw [Bool.not_eq_true] at hg
        simp [hg]
  | Gradescope c ga =>
    obtain ⟨gname, gsub, gdue, glink⟩ := ga
    unfold run_todo_step print_condition
    simp only [Assignment.due_at]
    cases gdue with
    | none => simp
    | some due =>
      dsimp only
      split
      next hg => simp [hg]
      next hg =>
        rw [Bool.not_eq_true] at hg
        simp [hg]

/-- Helper: one loop iteration increments the locked counter exactly when
`locked_condition` holds. -/
theorem run_todo_step_locked (config : Config) (show_all : Bool) (now : Int)
    (st : TodoState) (a : Assignment) :
    (run_todo_step config show_all now st a).locked_count =
      st.locked_count +
        (if locked_condition config show_all now a then 1 else 0) := by
  cases a with
  | Canvas c ca =>
    obtain ⟨cid, cdue, cpts, cpr, cname, ctypes, csub, clock, curl⟩ := ca
    unfold run_todo_step locked_condition
    simp only [Assignment.due_at]
    cases cdue with
    | none => simp
    | some due =>
      dsimp only
      split
      next hg =>
        cases cpts with
        | none => simp [hg]
        | some pts =>
          cases csub with
          | none => simp [hg]
          | some sub =>
            by_cases hl : (config.hide_locked && clock) = true
            · simp [hg, hl]
            · rw [Bool.not_eq_true] at hl
              simp only [hg, hl, Option.isSome_some, Bool.and_true,
                Bool.true_and, Bool.not_false, if_true, Bool.false_eq_true,
                if_false]
              split <;> rfl
      next hg =>
        rw [Bool.not_eq_true] at hg
        simp [hg]
  | Gradescope c ga =>
    obtain ⟨gname, gsub, gdue, glink⟩ := ga
    unfold run_todo_step locked_condition
    simp only [Assignment.due_at]
    cases gdue with
    | none => simp
    | some due =>
      dsimp only
      split
      next hg => simp [hg]
      next hg =>
        rw [Bool.not_eq_true] at hg
        simp [hg]

/-- Helper: over any assignment list the loop's printed output is the
initial output followed by the assignments satisfying `print_condition`,
in order. -/
theorem run_print_loop_printed (config : Config) (show_all : Bool)
    (now : Int) (l : List Assignment) (st : TodoState) :
    (l.foldl (run_todo_step config show_all now) st).printed =
      st.printed ++ l.filter (print_condition config show_all now) := by
  induction l generalizing st with
  | nil => simp
  | cons a l ih =>
    rw [List.foldl_cons, ih, run_todo_step_printed, List.filter_cons]
    by_cases h : print_condition config show_all now a = true <;> simp [h]

/-- Helper: over any assignment list the loop's locked counter grows by
the number of assignments satisfying `locked_condition`. -/
theorem run_print_loop_locked (config : Config) (show_all : Bool)
    (now : Int) (l : List Assignment) (st : TodoState) :
    (l.foldl (run_todo_step config show_all now) st).locked_count =
      st.locked_count + l.countP (locked_condition config show_all now) := by
  induction l generalizing st with
  | nil => simp
  | cons a l ih =>
    rw [List.foldl_cons, ih, run_todo_step_locked, List.countP_cons]
    by_cases h : locked_condition config show_all now a = true <;>
      simp [h] <;> omega

/-- Claim C5: for every merged assignment list the printed report is in
non-increasing order of due timestamp (`due_desc` pairwise), and every
printed assignment has a due timestamp. -/
theorem printed_sorted_by_due (config : Config) (show_all : Bool) (now : Int)
    (cv : List (CanvasCourse × List CanvasAssignment))
    (gs : List (GradescopeCourse × List GradescopeAssignment)) :
    ((run_todo_model config show_all now cv gs).printed).Pairwise due_desc ∧
    ∀ a ∈ (run_todo_model config show_all now cv gs).printed,
      a.due_at.isSome = true := by
  have hp : (run_todo_model config show_all now cv gs).printed =
      (sort_by_due_desc (candidate_assignments config cv gs)).filter
        (print_condition config show_all now) := by
    unfold run_todo_model
    rw [run_print_loop_printed]
    rfl
  constructor
  · rw [hp]
    exact List.Pairwise.filter _ (List.sorted_insertionSort due_desc _)
  · intro a ha
    rw [hp, List.mem_filter] at ha
    have hc := ha.2
    unfold print_condition at hc
    simp only [Bool.and_eq_true] at hc
    exact hc.1.1

/-- Claim C10: a Canvas assignment without `points_possible` or without a
`submission` record leaves the loop state untouched — it is never printed,
never counted as locked, and never moves the next-due markers — and can be
deleted from any position of the candidate list without changing the
result. -/
theorem missing_points_or_submission_ignored (config : Config)
    (show_all : Bool) (now : Int) (c : CanvasCourse) (ca : CanvasAssignment)
    (h : ca.points_possible = none ∨ ca.submission = none) :
    (∀ st : TodoState,
      run_todo_step config show_all now st (.Canvas c ca) = st) ∧
    ∀ (st : TodoState) (l1 l2 : List Assignment),
      (l1 ++ Assignment.Canvas c ca :: l2).foldl
          (run_todo_step config show_all now) st =
        (l1 ++ l2).foldl (run_todo_step config show_all now) st := by
  obtain ⟨cid, cdue, cpts, cpr, cname, ctypes, csub, clock, curl⟩ := ca
  dsimp only at h
  have hstep : ∀ st : TodoState,
      run_todo_step config show_all now st
        (.Canvas c ⟨cid, cdue, cpts, cpr, cname, ctypes, csub, clock, curl⟩) =
        st := by
    intro st
    unfold run_todo_step
    simp only [Assignment.due_at]
    rcases h with h | h
    · subst h
      cases cdue <;> simp
    · subst h
      cases cdue <;> cases cpts <;> simp
  refine ⟨hstep, fun st l1 l2 => ?_⟩
  rw [List.foldl_append, List.foldl_append, List.foldl_cons, hstep]

/-- Witness for C10: the sample assignment without points leaves a
concrete state unchanged. -/
theorem missing_points_or_submission_ignored_witness :
    run_todo_step cfgPlain false 0 ⟨none, none, 0, []⟩
      (.Canvas course0 caNoPts) = ⟨none, none, 0, []⟩ :=
  (missing_points_or_submission_ignored cfgPlain false 0 course0 caNoPts
    (Or.inl rfl)).1 ⟨none, none, 0, []⟩

/-- Helper: an assignment diverted to the locked counter is never
printable — the two conditions are mutually exclusive. -/
theorem locked_condition_never_printed (config : Config) (show_all : Bool)
    (now : Int) (a : Assignment)
    (h : locked_condition config show_all now a = true) :
    print_condition config show_all now a = false := by
  cases a with
  | Canvas c ca =>
    unfold locked_condition at h
    unfold print_condition
    simp only [Bool.and_eq_true] at h
    obtain ⟨⟨h1, h2⟩, h3, h4, h5⟩ := h
    simp [h1, h2, h3, h4, h5]
  | Gradescope c ga =>
    unfold locked_condition at h
    simp at h

/-- Claim C7: with `hide_locked` configured, the loop's locked counter
equals the number of otherwise-printable locked Canvas assignments, none
of them is printed, and the trailing summary is absent at count 0,
singular at count 1 and plural otherwise. -/
theorem hide_locked_suppresses_and_counts (config : Config)
    (show_all : Bool) (now : Int)
    (cv : List (CanvasCourse × List CanvasAssignment))
    (gs : List (GradescopeCourse × List GradescopeAssignment))
    (h : config.hide_locked = true) :
    (run_todo_model config show_all now cv gs).locked_count =
      (sort_by_due_desc (candidate_assignments config cv gs)).countP
        (locked_condition config show_all now) ∧
    (∀ a, locked_condition config show_all now a = true →
      a ∉ (run_todo_model config show_all now cv gs).printed) ∧
    locked_summary 0 = none ∧
    locked_summary 1 = some "(+1 locked assignment)" ∧
    (∀ n, 2 ≤ n → locked_summary n =
      some ("(+" ++ toString n ++ " locked assignments)")) := by
  refine ⟨?_, ?_, rfl, rfl, ?_⟩
  · unfold run_todo_model
    rw [run_print_loop_locked]
    simp
  · intro a ha hmem
    unfold run_todo_model at hmem
    rw [run_print_loop_printed] at hmem
    simp only [List.nil_append] at hmem
    rw [List.mem_filter] at hmem
    rw [locked_condition_never_printed config show_all now a ha] at hmem
    exact absurd hmem.2 (by simp)
  · intro n hn
    unfold locked_summary
    have h0 : (n != 0) = true := by
      simp only [bne_iff_ne, ne_eq]
      omega
    have h1 : (n == 1) = false := by
      simp only [beq_eq_false_iff_ne, ne_eq]
      omega
    rw [if_pos h0, h1]
    simp only [if_false, Bool.false_eq_true]
    rw [String.append_assoc, String.append_assoc]
    rfl

/-- Witness for C7 at a concrete locked assignment: the counter matches
the locked count of the sorted candidates and the summary evaluations
hold. -/
theorem hide_locked_suppresses_and_counts_witness :
    (run_todo_model cfgLock false 0 [(course0, [caLocked])] []).locked_count =
      (sort_by_due_desc
          (candidate_assignments cfgLock [(course0, [caLocked])] [])).countP
        (locked_condition cfgLock false 0) ∧
    (run_todo_model cfgLock false 0 [(course0, [caLocked])] []).locked_count =
      1 ∧
    locked_summary 0 = none ∧
    locked_summary 1 = some "(+1 locked assignment)" :=
  ⟨(hide_locked_suppresses_and_counts cfgLock false 0 [(course0, [caLocked])]
      [] rfl).1,
    by decide,
    (hide_locked_suppresses_and_counts cfgLock false 0 [(course0, [caLocked])]
      [] rfl).2.2.1,
    (hide_locked_suppresses_and_counts cfgLock false 0 [(course0, [caLocked])]
      [] rfl).2.2.2.1⟩

/-- Claim C4 as amended: every Canvas assignment in the candidate set —
the list built before sorting and before any `should_show` evaluation,
with no dependence on `--show-all` — belongs to a course with no
`ByClassId` exclusion and carries no `ByAssignmentId` exclusion. -/
theorem canvas_exclusions_hard_filter (config : Config)
    (cv : List (CanvasCourse × List CanvasAssignment))
    (gs : List (GradescopeCourse × List GradescopeAssignment))
    (c : CanvasCourse) (ca : CanvasAssignment)
    (hmem : Assignment.Canvas c ca ∈ candidate_assignments config cv gs) :
    Exclusion.ByClassId c.id ∉ config.exclude ∧
    Exclusion.ByAssignmentId ca.id ∉ config.exclude := by
  unfold candidate_assignments at hmem
  rw [List.mem_filter] at hmem
  obtain ⟨hm, hex⟩ := hmem
  constructor
  · unfold merge_assignments at hm
    rw [List.mem_append] at hm
    rcases hm with hm | hm
    · simp only [List.mem_flatMap, List.mem_map] at hm
      obtain ⟨p, _, a0, _, habs⟩ := hm
      cases habs
    · simp only [List.mem_flatMap, List.mem_map] at hm
      obtain ⟨p, hp, a0, ha0, heq⟩ := hm
      obtain ⟨hpc, hpa⟩ : p.1 = c ∧ a0 = ca := by
        cases heq
        exact ⟨rfl, rfl⟩
      unfold load_canvas_model at hp
      have hp2 := ((List.perm_insertionSort _ _).mem_iff).mp hp
      rw [List.mem_filter] at hp2
      have hferr := hp2.2
      rw [Bool.not_eq_true'] at hferr
      intro hin
      have hexc : canvas_course_excluded config p.1 = true := by
        unfold canvas_course_excluded
        rw [List.any_eq_true]
        refine ⟨Exclusion.ByClassId c.id, hin, ?_⟩
        simp [hpc]
      rw [hexc] at hferr
      exact absurd hferr (by simp)
  · intro hin
    rw [Bool.not_eq_true'] at hex
    have hexc : assignment_excluded config (Assignment.Canvas c ca) = true := by
      unfold assignment_excluded
      rw [List.any_eq_true]
      refine ⟨Exclusion.ByAssignmentId ca.id, hin, ?_⟩
      simp [Assignment.assignment_id]
    rw [hexc] at hex
    exact absurd hex (by simp)

/-- Witness for the amended C4: the sample Canvas assignment sits in a
concrete candidate set and matches no exclusion. -/
theorem canvas_exclusions_hard_filter_witness :
    Exclusion.ByClassId course0.id ∉ cfgPlain.exclude ∧
    Exclusion.ByAssignmentId ca0.id ∉ cfgPlain.exclude :=
  canvas_exclusions_hard_filter cfgPlain [(course0, [ca0])] [] course0 ca0
    (by decide)

/-- Helper: writing back the value a slot already holds leaves the list
unchanged. -/
theorem set_getElem?_self {α : Type} (l : List α) (i : Nat) (x : α)
    (h : l[i]? = some x) : l.set i x = l := by
  apply List.ext_getElem?
  intro j
  rw [List.getElem?_set]
  by_cases hij : i = j
  · subst hij
    obtain ⟨hlt, he⟩ := List.getElem?_eq_some.mp h
    rw [if_pos rfl, if_pos hlt, h]
  · rw [if_neg hij]

/-- Claim C9: `Progress::wrap` returns exactly the wrapped future's
output — any value, an `Err` included — and afterwards the registry holds
exactly the (slot, label) entries it held before: the slot inserted for
the label is released on every value-producing exit path. -/
theorem wrap_returns_and_restores {α : Type} (a : Arena) (msg : String)
    (out : α) :
    (progress_wrap a msg out).1 = out ∧
    arena_entries (progress_wrap a msg out).2 = arena_entries a := by
  refine ⟨rfl, ?_⟩
  unfold progress_wrap arena_remove
  dsimp only
  unfold arena_insert
  dsimp only
  by_cases hi : a.findIdx Option.isNone < a.length
  · rw [if_pos hi]
    dsimp only
    rw [List.set_set]
    have hfree : Option.isNone (a.get ⟨a.findIdx Option.isNone, hi⟩) = true :=
      List.findIdx_getElem
    rw [Option.isNone_iff_eq_none] at hfree
    have hq : a[a.findIdx Option.isNone]? = some none := by
      rw [List.getElem?_eq_getElem hi]
      exact congrArg some hfree
    rw [set_getElem?_self a _ none hq]
  · rw [if_neg hi]
    dsimp only
    have hset : (a ++ [some msg]).set a.length none = a ++ [none] := by
      rw [List.set_append]
      simp
    rw [hset]
    unfold arena_entries
    rw [List.enum_append]
    simp

/-- Helper: clearing a slot that holds `x` removes exactly one `x` from
the flattened values. -/
theorem filterMap_id_set_none {α : Type} :
    ∀ (xs : List (Option α)) (i : Nat) (x : α),
    xs[i]? = some (some x) →
    (xs.filterMap id).Perm (x :: (xs.set i none).filterMap id) := by
  intro xs
  induction xs with
  | nil => intro i x h; simp at h
  | cons hd tl ih =>
    intro i x h
    cases i with
    | zero =>
      rw [List.getElem?_cons_zero] at h
      cases h
      simp
    | succ i =>
      rw [List.getElem?_cons_succ] at h
      have hih := ih i x h
      cases hd with
      | none => simpa using hih
      | some y =>
        simp only [List.set_cons_succ, List.filterMap_cons, id]
        exact (hih.cons y).trans (List.Perm.swap x y _)

/-- Helper: filling a free slot with `x` adds exactly one `x` to the
flattened values. -/
theorem filterMap_id_set_some {α : Type} :
    ∀ (xs : List (Option α)) (i : Nat) (x : α),
    xs[i]? = some none →
    ((xs.set i (some x)).filterMap id).Perm (x :: xs.filterMap id) := by
  intro xs
  induction xs with
  | nil => intro i x h; simp at h
  | cons hd tl ih =>
    intro i x h
    cases i with
    | zero =>
      rw [List.getElem?_cons_zero] at h
      cases h
      simp
    | succ i =>
      rw [List.getElem?_cons_succ] at h
      have hih := ih i x h
      cases hd with
      | none => simpa using hih
      | some y =>
        simp only [List.set_cons_succ, List.filterMap_cons, id]
        exact ((hih.cons y)).trans (List.Perm.swap x y _)

/-- Helper: `arena_insert` targets a currently-free slot or appends. -/
theorem arena_insert_free_slot (a : Arena) (l : String) :
    a[(arena_insert a l).1]? = some none ∨ (arena_insert a l).1 = a.length := by
  unfold arena_insert
  dsimp only
  by_cases hi : a.findIdx Option.isNone < a.length
  · rw [if_pos hi]
    left
    have hfree : Option.isNone (a.get ⟨a.findIdx Option.isNone, hi⟩) = true :=
      List.findIdx_getElem
    rw [Option.isNone_iff_eq_none] at hfree
    rw [List.getElem?_eq_getElem hi]
    exact congrArg some hfree
  · rw [if_neg hi]
    right
    rfl

/-- Helper: after an insert the returned handle holds the label. -/
theorem arena_insert_getElem_self (a : Arena) (l : String) :
    (arena_insert a l).2[(arena_insert a l).1]? = some (some l) := by
  unfold arena_insert
  dsimp only
  by_cases hi : a.findIdx Option.isNone < a.length
  · rw [if_pos hi]
    dsimp only
    rw [List.getElem?_set]
    simp [hi]
  · rw [if_neg hi]
    dsimp only
    exact List.getElem?_concat_length a (some l)

/-- Helper: an insert leaves every other slot untouched. -/
theorem arena_insert_getElem_other (a : Arena) (l : String) (s : Nat)
    (h : s ≠ (arena_insert a l).1) :
    (arena_insert a l).2[s]? = a[s]? := by
  unfold arena_insert at *
  dsimp only at *
  by_cases hi : a.findIdx Option.isNone < a.length
  · rw [if_pos hi] at *
    dsimp only at h
    rw [List.getElem?_set, if_neg (fun hc => h hc.symm)]
  · rw [if_neg hi] at *
    dsimp only at h
    rw [List.getElem?_append]
    by_cases hs : s < a.length
    · rw [if_pos hs]
    · rw [if_neg hs]
      have h1 : ([some l] : Arena)[s - a.length]? = none := by
        apply List.getElem?_eq_none
        simp
        omega
      have h2 : a[s]? = none := by
        apply List.getElem?_eq_none
        omega
      rw [h1, h2]

/-- Helper: the slot an insert returns was not occupied beforehand. -/
theorem arena_insert_fresh (a : Arena) (l : String) (lab : String) :
    ¬ a[(arena_insert a l).1]? = some (some lab) := by
  intro hcon
  rcases arena_insert_free_slot a l with hfree | hlen
  · rw [hcon] at hfree
    cases hfree
  · rw [hlen] at hcon
    rw [List.getElem?_eq_none (Nat.le_refl _)] at hcon
    cases hcon

/-- Helper: an insert adds exactly its label to the rendered messages. -/
theorem arena_insert_messages (a : Arena) (l : String) :
    ((arena_insert a l).2.filterMap id).Perm (l :: a.filterMap id) := by
  unfold arena_insert
  dsimp only
  by_cases hi : a.findIdx Option.isNone < a.length
  · rw [if_pos hi]
    dsimp only
    apply filterMap_id_set_some
    have hfree : Option.isNone (a.get ⟨a.findIdx Option.isNone, hi⟩) = true :=
      List.findIdx_getElem
    rw [Option.isNone_iff_eq_none] at hfree
    rw [List.getElem?_eq_getElem hi]
    exact congrArg some hfree
  · rw [if_neg hi]
    dsimp only
    rw [List.filterMap_append]
    simpa using List.perm_append_singleton l (a.filterMap id)

/-- Helper: starting a `wrap` call preserves the registry/ledger
correspondence and adds the new label. -/
theorem progress_step_beginOp (st : ProgressState) (cs : List (Option String))
    (l : String)
    (hinv : SlotsInv st.arena st.slots cs)
    (hperm : (st.arena.filterMap id).Perm (cs.filterMap id)) :
    SlotsInv (arena_insert st.arena l).2
      (st.slots ++ [some (arena_insert st.arena l).1]) (cs ++ [some l]) ∧
    ((arena_insert st.arena l).2.filterMap id).Perm
      ((cs ++ [some l]).filterMap id) := by
  obtain ⟨hlen, hptr, hnone, hinj⟩ := hinv
  constructor
  · refine ⟨by simp [hlen], ?_, ?_, ?_⟩
    · intro k s hk
      by_cases hklen : k < st.slots.length
      · rw [List.getElem?_append, if_pos hklen] at hk
        obtain ⟨lab, hcs, ha⟩ := hptr k s hk
        refine ⟨lab, ?_, ?_⟩
        · rw [List.getElem?_append, if_pos (hlen ▸ hklen)]
          exact hcs
        · have hsi : s ≠ (arena_insert st.arena l).1 :=
            fun hc => arena_insert_fresh st.arena l lab (hc ▸ ha)
          rw [arena_insert_getElem_other st.arena l s hsi]
          exact ha
      · rw [List.getElem?_append, if_neg hklen] at hk
        have hk0 : k - st.slots.length = 0 := by
          by_contra h0
          rw [List.getElem?_eq_none (by simp; omega)] at hk
          cases hk
        rw [hk0, List.getElem?_cons_zero] at hk
        cases hk
        refine ⟨l, ?_, arena_insert_getElem_self st.arena l⟩
        rw [List.getElem?_append, if_neg (by omega : ¬ k < cs.length)]
        have hc0 : k - cs.length = 0 := by omega
        rw [hc0, List.getElem?_cons_zero]
    · intro k hk
      by_cases hklen : k < st.slots.length
      · rw [List.getElem?_append, if_pos hklen] at hk
        rw [List.getElem?_append, if_pos (hlen ▸ hklen)]
        exact hnone k hk
      · rw [List.getElem?_append, if_neg hklen] at hk
        have hk0 : k - st.slots.length = 0 := by
          by_contra h0
          rw [List.getElem?_eq_none (by simp; omega)] at hk
          cases hk
        rw [hk0, List.getElem?_cons_zero] at hk
        cases hk
    · intro k1 k2 s h1 h2
      by_cases b1 : k1 < st.slots.length <;> by_cases b2 : k2 < st.slots.length
      · rw [List.getElem?_append, if_pos b1] at h1
        rw [List.getElem?_append, if_pos b2] at h2
        exact hinj k1 k2 s h1 h2
      · rw [List.getElem?_append, if_pos b1] at h1
        rw [List.getElem?_append, if_neg b2] at h2
        have hk0 : k2 - st.slots.length = 0 := by
          by_contra h0
          rw [List.getElem?_eq_none (by simp; omega)] at h2
          cases h2
        rw [hk0, List.getElem?_cons_zero] at h2
        cases h2
        obtain ⟨lab, _, ha⟩ := hptr k1 _ h1
        exact absurd ha (arena_insert_fresh st.arena l lab)
      · rw [List.getElem?_append, if_neg b1] at h1
        rw [List.getElem?_append, if_pos b2] at h2
        have hk0 : k1 - st.slots.length = 0 := by
          by_contra h0
          rw [List.getElem?_eq_none (by simp; omega)] at h1
          cases h1
        rw [hk0, List.getElem?_cons_zero] at h1
        cases h1
        obtain ⟨lab, _, ha⟩ := hptr k2 _ h2
        exact absurd ha (arena_insert_fresh st.arena l lab)
      · rw [List.getElem?_append, if_neg b1] at h1
        rw [List.getElem?_append, if_neg b2] at h2
        have hk1 : k1 - st.slots.length = 0 := by
          by_contra h0
          rw [List.getElem?_eq_none (by simp; omega)] at h1
          cases h1
        have hk2 : k2 - st.slots.length = 0 := by
          by_contra h0
          rw [List.getElem?_eq_none (by simp; omega)] at h2
          cases h2
        omega
  · rw [List.filterMap_append]
    refine ((arena_insert_messages st.arena l).trans (hperm.cons l)).trans ?_
    simpa using (List.perm_append_singleton l (cs.filterMap id)).symm

/-- Helper: completing a `wrap` call preserves the registry/ledger
correspondence and removes that call's label. -/
theorem progress_step_endOp (st : ProgressState) (cs : List (Option String))
    (k s : Nat) (hs : st.slots[k]? = some (some s))
    (hinv : SlotsInv st.arena st.slots cs)
    (hperm : (st.arena.filterMap id).Perm (cs.filterMap id)) :
    SlotsInv (arena_remove st.arena s) (st.slots.set k none) (cs.set k none) ∧
    ((arena_remove st.arena s).filterMap id).Perm
      ((cs.set k none).filterMap id) := by
  obtain ⟨hlen, hptr, hnone, hinj⟩ := hinv
  obtain ⟨lab, hcs, ha⟩ := hptr k s hs
  have hklt : k < st.slots.length := (List.getElem?_eq_some.mp hs).1
  constructor
  · refine ⟨by simp [hlen], ?_, ?_, ?_⟩
    · intro k1 s1 h1
      by_cases hk1 : k1 = k
      · subst hk1
        rw [List.getElem?_set, if_pos rfl, if_pos hklt] at h1
        cases h1
      · rw [List.getElem?_set, if_neg (fun hc => hk1 hc.symm)] at h1
        obtain ⟨lab1, hcs1, ha1⟩ := hptr k1 s1 h1
        have hss : s1 ≠ s := fun hc => hk1 (hinj k1 k s (hc ▸ h1) hs)
        refine ⟨lab1, ?_, ?_⟩
        · rw [List.getElem?_set, if_neg (fun hc => hk1 hc.symm)]
          exact hcs1
        · unfold arena_remove
          rw [List.getElem?_set, if_neg (fun hc => hss hc.symm)]
          exact ha1
    · intro k1 h1
      by_cases hk1 : k1 = k
      · subst hk1
        rw [List.getElem?_set, if_pos rfl, if_pos (hlen ▸ hklt)]
      · rw [List.getElem?_set, if_neg (fun hc => hk1 hc.symm)] at h1
        rw [List.getElem?_set, if_neg (fun hc => hk1 hc.symm)]
        exact hnone k1 h1
    · intro k1 k2 s1 h1 h2
      by_cases hk1 : k1 = k
      · subst hk1
        rw [List.getElem?_set, if_pos rfl, if_pos hklt] at h1
        cases h1
      · by_cases hk2 : k2 = k
        · subst hk2
          rw [List.getElem?_set, if_pos rfl, if_pos hklt] at h2
          cases h2
        · rw [List.getElem?_set, if_neg (fun hc => hk1 hc.symm)] at h1
          rw [List.getElem?_set, if_neg (fun hc => hk2 hc.symm)] at h2
          exact hinj k1 k2 s1 h1 h2
  · have hA := filterMap_id_set_none st.arena s lab ha
    have hC := filterMap_id_set_none cs k lab hcs
    have hchain :
        (lab :: (st.arena.set s none).filterMap id).Perm
          (lab :: (cs.set k none).filterMap id) :=
      (hA.symm.trans hperm).trans hC
    exact hchain.cons_inv

/-- Helper: over any valid trace of wrap events the registry stays in
correspondence with the per-call ledger. -/
theorem progress_run_invariant (events : List WrapEvent) :
    ∀ (st st' : ProgressState) (cs : List (Option String)),
    SlotsInv st.arena st.slots cs →
    (st.arena.filterMap id).Perm (cs.filterMap id) →
    events.foldlM progress_step st = some st' →
    SlotsInv st'.arena st'.slots (call_states cs events) ∧
    (st'.arena.filterMap id).Perm ((call_states cs events).filterMap id) := by
  induction events with
  | nil =>
    intro st st' cs hinv hperm hrun
    simp only [List.foldlM_nil] at hrun
    cases hrun
    exact ⟨hinv, hperm⟩
  | cons e es ih =>
    intro st st' cs hinv hperm hrun
    rw [List.foldlM_cons] at hrun
    cases he : progress_step st e with
    | none =>
      rw [he] at hrun
      simp at hrun
    | some st1 =>
      rw [he] at hrun
      simp only [Option.bind_eq_bind, Option.some_bind] at hrun
      have hstep : SlotsInv st1.arena st1.slots (call_states cs [e]) ∧
          (st1.arena.filterMap id).Perm
            ((call_states cs [e]).filterMap id) := by
        cases e with
        | beginOp l =>
          unfold progress_step at he
          cases he
          exact progress_step_beginOp st cs l ⟨hinv.1, hinv.2.1, hinv.2.2.1,
            hinv.2.2.2⟩ hperm
        | endOp k =>
          unfold progress_step at he
          dsimp only at he
          cases hsk : st.slots[k]? with
          | none =>
            rw [hsk] at he
            cases he
          | some o =>
            cases o with
            | none =>
              rw [hsk] at he
              cases he
            | some s =>
              rw [hsk] at he
              cases he
              exact progress_step_endOp st cs k s hsk ⟨hinv.1, hinv.2.1,
                hinv.2.2.1, hinv.2.2.2⟩ hperm
      have hmain := ih st1 st' (call_states cs [e]) hstep.1 hstep.2 hrun
      have hcs : call_states (call_states cs [e]) es = call_states cs (e :: es) := by
        unfold call_states
        rw [List.foldl_cons, List.foldl_cons, List.foldl_nil]
      rw [hcs] at hmain
      exact hmain

/-- Claim C8: after any valid sequence of insertions and removals
performed through `Progress::wrap`, the rendered count equals the number
of wrap calls begun and not yet completed, and the rendered message is
the comma-joined list of exactly those calls' labels. -/
theorem progress_render_inflight (events : List WrapEvent)
    (st : ProgressState) (h : progress_run events = some st) :
    (progress_update st.arena).2 = (in_flight_labels events).length ∧
    ∃ msgs : List String, msgs.Perm (in_flight_labels events) ∧
      progress_update st.arena = (String.intercalate ", " msgs, msgs.length) := by
  have hinv0 : SlotsInv ([] : Arena) ([] : List (Option Nat))
      ([] : List (Option String)) := by
    refine ⟨rfl, ?_, ?_, ?_⟩
    · intro k s hk
      simp at hk
    · intro k hk
      simp at hk
    · intro k1 k2 s h1 h2
      simp at h1
  obtain ⟨hinv, hperm⟩ :=
    progress_run_invariant events ⟨[], []⟩ st [] hinv0 (by simp) h
  refine ⟨?_, st.arena.filterMap id, hperm, rfl⟩
  unfold progress_update arena_messages in_flight_labels
  dsimp only
  exact hperm.length_eq

/-- Witness for C8 at the concrete trace begin a, begin b, end the first
call. -/
theorem progress_render_inflight_witness :
    (progress_update (ProgressState.mk [none, some "b"] [none, some 1]).arena).2 =
      (in_flight_labels
        [WrapEvent.beginOp "a", WrapEvent.beginOp "b", WrapEvent.endOp 0]).length :=
  (progress_render_inflight
    [WrapEvent.beginOp "a", WrapEvent.beginOp "b", WrapEvent.endOp 0]
    ⟨[none, some "b"], [none, some 1]⟩ (by decide)).1
